import Mathlib

/-!
Verification development for the review-scraper pipeline.

Shallow embedding of the three core subsystems:
* the scrape orchestrator (`Manager.ScrapeAll` in `internal/scraper/g2.go`),
* the classification engine (`Analyzer.Analyze` / `Analyzer.analyzeLocal`
  in `internal/analyzer/analyzer.go`),
* the routing engine (`Router.Route` in `internal/router/router.go`).

Modelling conventions:
* Go `float64` values (scores, thresholds) are modelled as `ℚ`; the float
  literals 0.3, 0.5, 0.6, 0.4, 1.2 of the source become the exact rationals
  3/10, 1/2, 3/5, 2/5, 6/5.
* Go maps become association lists; a lookup returns the first binding,
  matching map semantics because keys are never duplicated.  Go map
  iteration order is unspecified; the model fixes insertion order, which
  is one admissible schedule.
* The Unicode-aware Go `strings.ToLower` is modelled on the ASCII range,
  and entity positions are character offsets standing in for the Go byte
  offsets; no theorem below depends on either refinement.
* The concurrent fan-out of `ScrapeAll` appends each adapter outcome to
  shared accumulators under a mutex; the model runs the adapters in list
  order, one admissible interleaving.
* Time stamps and the open-ended metadata map of `models.Review` are not
  consulted by any of the functions below and are omitted from the record.
-/

/-! ## Generic list/string machinery -/

/-- First-binding association-list lookup, the model of a Go map read. -/
def assocFind {α : Type} (k : String) : List (String × α) → Option α
  | [] => none
  | (k', v) :: rest => if k' = k then some v else assocFind k rest

/-- `List.isPrefixOf` specialised rendering: does `w` occur at the head? -/
def prefixAt (w : List Char) (l : List Char) : Bool :=
  List.isPrefixOf w l

/-- Fuel-driven count of non-overlapping occurrences of `w` in the text,
mirroring `len(strings.Split(text, word)) - 1` for a non-empty `word`
(`countOccurrences` in `analyzer.go`). Structural on the fuel so that the
kernel can evaluate it. -/
def countOccFuel (w : List Char) : Nat → List Char → Nat
  | 0, _ => 0
  | _ + 1, [] => 0
  | fuel + 1, c :: cs =>
    if prefixAt w (c :: cs) then 1 + countOccFuel w fuel (cs.drop (w.length - 1))
    else countOccFuel w fuel cs

/-- `countOccurrences(text, word)` from `analyzer.go`. -/
def countOccurrences (text word : String) : Nat :=
  countOccFuel word.data text.data.length text.data

/-- Substring occurrence test on character lists. -/
def containsSubList (sub : List Char) : List Char → Bool
  | [] => sub.isEmpty
  | c :: cs => prefixAt sub (c :: cs) || containsSubList sub cs

/-- Substring test, the model of Go `strings.Contains`. -/
def containsSub (s sub : String) : Bool :=
  containsSubList sub.data s.data

/-- First occurrence index of `sub`, the model of Go `strings.Index`
(`none` models the return value -1). -/
def firstIdx (sub : List Char) : List Char → Option Nat
  | [] => if sub.isEmpty then some 0 else none
  | c :: cs =>
    if prefixAt sub (c :: cs) then some 0
    else (firstIdx sub cs).map (· + 1)

/-- ASCII lower-casing of one character (model of `strings.ToLower`). -/
def toLowerChar (c : Char) : Char :=
  if ('A' ≤ c ∧ c ≤ 'Z') then Char.ofNat (c.toNat + 32) else c

/-- Lower-cased copy of a string. -/
def lowerStr (s : String) : String :=
  ⟨s.data.map toLowerChar⟩

/-- Keep the first occurrence of each element, the deterministic model of
building a Go map keyed by the element (`keywordMap` in `analyzer.New`). -/
def dedupFirst : List String → List String
  | [] => []
  | k :: ks => k :: (dedupFirst ks).filter (fun k' => k' ≠ k)

/-- Number of maximal runs of at least three uppercase ASCII letters,
mirroring `regexp.MustCompile("[A-Z]{3,}").FindAllString` match counting;
`run` is the length of the run currently open. -/
def capsRuns : List Char → Nat → Nat
  | [], run => if 3 ≤ run then 1 else 0
  | c :: cs, run =>
    if ('A' ≤ c ∧ c ≤ 'Z') then capsRuns cs (run + 1)
    else (if 3 ≤ run then 1 else 0) + capsRuns cs 0

/-- Lowercase hex digit. -/
def hexDigit (n : Nat) : Char :=
  if n < 10 then Char.ofNat (48 + n) else Char.ofNat (87 + n)

/-- UTF-8 bytes of one code point. -/
def utf8Bytes (c : Char) : List Nat :=
  let n := c.toNat
  if n < 128 then [n]
  else if n < 2048 then [192 + n / 64, 128 + n % 64]
  else if n < 65536 then [224 + n / 4096, 128 + (n / 64) % 64, 128 + n % 64]
  else [240 + n / 262144, 128 + (n / 4096) % 64, 128 + (n / 64) % 64, 128 + n % 64]

/-- Model of Go `fmt.Sprintf("%x", s)`: lowercase hex of the UTF-8 bytes.
Used by `Analyzer.Analyze` as the content fingerprint (cache key). -/
def hexOfString (s : String) : String :=
  ⟨(s.data.map (fun c => (utf8Bytes c).map (fun b => [hexDigit (b / 16), hexDigit (b % 16)]))).flatten.flatten⟩

/-! ## Data model (`pkg/models/models.go`) -/

/-- `models.Review` (time stamps and metadata omitted; unused here). -/
structure Review where
  id : String
  source : String
  sourceId : String
  content : String
  title : String
  author : String
  rating : Option ℚ
  url : String
deriving DecidableEq

/-- `models.Entity`. -/
structure Entity where
  text : String
  type : String
  position : Nat
deriving DecidableEq

/-- `models.AnalysisResult`; the `CategoryScores` map becomes an
association list. -/
structure AnalysisResult where
  reviewID : String
  sentimentScore : ℚ
  isNegative : Bool
  isRelevant : Bool
  intentCategory : String
  confidence : ℚ
  keywords : List String
  entities : List Entity
  categoryScores : List (String × ℚ)
deriving DecidableEq

/-- The Go zero value `models.AnalysisResult{}`, returned by `Analyze`
when a strategy fails. -/
def zeroResult : AnalysisResult :=
  { reviewID := "", sentimentScore := 0, isNegative := false,
    isRelevant := false, intentCategory := "", confidence := 0,
    keywords := [], entities := [], categoryScores := [] }

/-- `models.Department`. -/
structure Department where
  id : String
  name : String
  contactInfo : String
  categories : List String
deriving DecidableEq

/-! ## Scrape orchestrator (`internal/scraper/g2.go`, `Manager.ScrapeAll`) -/

/-- One configured adapter as `ScrapeAll` observes it: its `Name()`, its
`IsEnabled()` answer, and the outcome of its single `Scrape` call — a
review list plus a Go-style error (`none` = nil). -/
structure Adapter where
  name : String
  enabled : Bool
  scrape : List Review × Option String
deriving DecidableEq

/-- One iteration of the fan-out loop body: a failing adapter appends
`fmt.Errorf("%s scraper error: %w", name, err)` to the error accumulator
(discarding its reviews), a succeeding adapter appends its reviews. -/
def scrapeStep (acc : List Review × List String) (a : Adapter) :
    List Review × List String :=
  match a.scrape with
  | (_, some e) => (acc.1, acc.2 ++ [a.name ++ " scraper error: " ++ e])
  | (rs, none) => (acc.1 ++ rs, acc.2)

/-- The combined error text built by the `fmt.Errorf("%v; %w", ...)` fold
over the accumulated errors. -/
def combineErrs : List String → String
  | [] => ""
  | e :: es => es.foldl (fun acc e' => acc ++ "; " ++ e') e

/-- `Manager.ScrapeAll`: run every enabled adapter, accumulate reviews and
errors, and fail (nil reviews, combined error) exactly when no reviews
were gathered and at least one error occurred. -/
def scrapeAll (adapters : List Adapter) : List Review × Option String :=
  let acc := (adapters.filter (fun a => a.enabled)).foldl scrapeStep ([], [])
  if acc.1.isEmpty ∧ ¬acc.2.isEmpty then ([], some (combineErrs acc.2))
  else (acc.1, none)

/-- The reviews of a succeeding adapter (`none` for a failing one). -/
def okReviews (a : Adapter) : Option (List Review) :=
  match a.scrape with
  | (rs, none) => some rs
  | (_, some _) => none

/-- The formatted error message contributed by a failing adapter
(`none` for a succeeding one). -/
def failMsg (a : Adapter) : Option String :=
  match a.scrape with
  | (_, some e) => some (a.name ++ " scraper error: " ++ e)
  | (_, none) => none

/-- Union (in adapter order) of the reviews of the enabled, succeeding
adapters. -/
def successReviews (adapters : List Adapter) : List Review :=
  ((adapters.filter (fun a => a.enabled)).filterMap okReviews).flatten

/-- Error messages of the enabled, failing adapters, in adapter order. -/
def failMsgs (adapters : List Adapter) : List String :=
  (adapters.filter (fun a => a.enabled)).filterMap failMsg

/-! ## Routing engine (`internal/router/router.go`) -/

/-- The hard-coded terminal fallback department of `Router.Route`. -/
def hardcodedSupport : Department :=
  { id := "support", name := "Customer Support",
    contactInfo := "support@company.com", categories := ["general_complaint"] }

/-- The router state: the category→department-id mapping cache, the
department table, and the configured default department id. -/
structure RouterState where
  mappingCache : List (String × String)
  departments : List (String × Department)
  defaultDepartment : String

/-- The two-stage lookup used by both the direct path and the score
fallback of `Route`: category to department id to department. -/
def lookupDept (r : RouterState) (category : String) : Option Department :=
  match assocFind category r.mappingCache with
  | some deptID => assocFind deptID r.departments
  | none => none

/-- Descending sort of the category-score pairs, the model of
`sort.Slice(scores, func(i, j) { return scores[i].score > scores[j].score })`.
The Go sort is unstable on ties; insertion sort fixes one admissible
order. -/
def sortScores (scores : List (String × ℚ)) : List (String × ℚ) :=
  List.insertionSort (fun x y => y.2 < x.2) scores

/-- The score-ranked fallback loop of `Route`: first category (in sorted
order) whose mapping leads to an existing department. -/
def firstMapped (r : RouterState) : List (String × ℚ) → Option Department
  | [] => none
  | (cat, _) :: rest =>
    match lookupDept r cat with
    | some d => some d
    | none => firstMapped r rest

/-- `Router.Route`: direct mapping, then score-ranked fallback, then the
configured default department, then the `"support"` department, then the
hard-coded terminal department.  Total by construction — it returns a
`Department`, never an error. -/
def Route (r : RouterState) (analysis : AnalysisResult) : Department :=
  match lookupDept r analysis.intentCategory with
  | some d => d
  | none =>
    match firstMapped r (sortScores analysis.categoryScores) with
    | some d => d
    | none =>
      match assocFind r.defaultDepartment r.departments with
      | some d => d
      | none =>
        match assocFind "support" r.departments with
        | some d => d
        | none => hardcodedSupport

/-! ## Classification engine (`internal/analyzer/analyzer.go`) -/

/-- `config.AnalyzerConfig` (the fields `Analyze`/`analyzeLocal` read). -/
structure AnalyzerConfig where
  mode : String
  negativeThreshold : ℚ
  relevanceThreshold : ℚ
  keywords : List String

/-- The fixed positive-word list of `analyzeLocal`. -/
def positiveWords : List String :=
  ["good", "great", "awesome", "excellent", "amazing", "love", "best",
   "fantastic", "perfect", "happy", "pleased", "satisfied", "wonderful",
   "helpful", "thank", "thanks", "reliable", "secure", "efficient",
   "intuitive"]

/-- The fixed negative-word list of `analyzeLocal`. -/
def negativeWords : List String :=
  ["bad", "poor", "terrible", "awful", "horrible", "worst", "hate",
   "disappointed", "frustrating", "useless", "broken", "annoying", "slow",
   "expensive", "waste", "difficult", "confusing", "crash", "bug", "error",
   "problem", "issue", "fail", "fails", "failed", "failing", "failure",
   "cannot", "can\x27t", "won\x27t", "doesn\x27t", "didn\x27t", "insecure",
   "vulnerability", "breach", "outage", "downtime"]

/-- Total occurrences of the positive words in the (already lower-cased)
text. -/
def positiveCount (content : String) : Nat :=
  (positiveWords.map (fun w => countOccurrences content w)).sum

/-- Total occurrences of the negative words in the (already lower-cased)
text. -/
def negativeCount (content : String) : Nat :=
  (negativeWords.map (fun w => countOccurrences content w)).sum

/-- The lexical sentiment score: `(positive - negative) / total`, or 0
when no sentiment word occurs. -/
def lexicalScore (content : String) : ℚ :=
  let total := positiveCount content + negativeCount content
  if 0 < total then
    ((positiveCount content : ℚ) - (negativeCount content : ℚ)) / (total : ℚ)
  else 0

/-- The intensity amplification: multiply by 1.2 and clamp into [-1, 1],
leaving an exactly-zero score unchanged. -/
def amplify (s : ℚ) : ℚ :=
  if s < 0 then
    let t := s * (6/5)
    if t < -1 then -1 else t
  else if 0 < s then
    let t := s * (6/5)
    if 1 < t then 1 else t
  else s

/-- The keyword→category table `defaultCategories` built in `analyzer.New`. -/
def categoryTable : List (String × String) :=
  [("bug", "bug_report"), ("crash", "bug_report"), ("error", "bug_report"),
   ("broken", "bug_report"), ("freeze", "bug_report"),
   ("slow", "performance"), ("laggy", "performance"), ("hang", "performance"),
   ("feature", "feature_request"), ("missing", "feature_request"),
   ("wish", "feature_request"), ("delivery", "logistics"),
   ("shipping", "logistics"), ("payment", "billing"), ("charge", "billing"),
   ("refund", "billing"), ("support", "customer_service"),
   ("service", "customer_service"), ("rude", "customer_service"),
   ("interface", "ui_ux"), ("confusing", "ui_ux"), ("difficult", "ui_ux"),
   ("dns", "network_services"), ("dhcp", "network_services"),
   ("ipam", "network_services"), ("ddi", "network_services"),
   ("nios", "nios_platform"), ("bloxone", "bloxone_platform"),
   ("threat", "security"), ("secure", "security"),
   ("protection", "security"), ("ddos", "security"),
   ("cloud", "cloud_services"), ("automation", "network_automation"),
   ("netmri", "network_automation")]

/-- The fixed Infoblox product list scanned after the configured
keywords. -/
def infobloxProducts : List String :=
  ["infoblox", "bloxone", "nios", "ddi", "dns firewall", "threat defense",
   "netmri", "ip address management", "ipam", "dhcp",
   "advanced dns protection"]

/-- The configured keywords, lower-cased and deduplicated — the key set of
`keywordMap` in `analyzer.New`. -/
def keywordList (cfg : AnalyzerConfig) : List String :=
  dedupFirst (cfg.keywords.map lowerStr)

/-- The keywords found in the content: every configured keyword occurring
as a substring, then every Infoblox product occurring and not already
listed. -/
def matchedKeywords (cfg : AnalyzerConfig) (content : String) : List String :=
  let base := (keywordList cfg).filter (fun k => containsSub content k)
  infobloxProducts.foldl
    (fun ks p =>
      if containsSub content p && !(ks.contains p) then ks ++ [p] else ks)
    base

/-- One `categoryScores[category]++` map update. -/
def bump : List (String × ℚ) → String → List (String × ℚ)
  | [], c => [(c, 1)]
  | (k, v) :: rest, c =>
    if k = c then (k, v + 1) :: rest else (k, v) :: bump rest c

/-- The category-score accumulation loop over the matched keywords. -/
def categoryScoresOf (keywords : List String) : List (String × ℚ) :=
  keywords.foldl
    (fun sc k =>
      match assocFind k categoryTable with
      | some cat => bump sc cat
      | none => sc)
    []

/-- The top-category selection loop: first strictly greater score wins,
starting from the empty category with score 0; empty winner falls back to
"general_complaint". -/
def topCategory (scores : List (String × ℚ)) : String :=
  let t := scores.foldl (fun (best : String × ℚ) p =>
    if best.2 < p.2 then p else best) ("", 0)
  if t.1 = "" then "general_complaint" else t.1

/-- The product patterns scanned for entities. -/
def productPatterns : List String :=
  ["infoblox", "bloxone", "nios", "ddi", "dhcp", "dns", "ipam", "netmri",
   "threat defense", "dns firewall", "cloud network automation"]

/-- The generic fallback patterns scanned for entities. -/
def genericPatterns : List String :=
  ["app", "website", "service", "product", "interface", "platform",
   "system"]

/-- Entity extraction: every product pattern present, then every generic
pattern present whose text is not already recorded. -/
def entitiesFor (content : String) : List Entity :=
  let es := productPatterns.foldl
    (fun es p =>
      match firstIdx p.data content.data with
      | some i => es ++ [{ text := p, type := "PRODUCT", position := i }]
      | none => es)
    ([] : List Entity)
  genericPatterns.foldl
    (fun es p =>
      match firstIdx p.data content.data with
      | some i =>
        if es.any (fun e => e.text = p) then es
        else es ++ [{ text := p, type := "PRODUCT", position := i }]
      | none => es)
    es

/-- The confidence computation: 0.5 for no keyword, otherwise `n/10`
with ceiling 1.0 applied before floor 0.3, as in the source. -/
def localConfidence (n : Nat) : ℚ :=
  if n = 0 then 1/2
  else
    let c : ℚ := (n : ℚ) / 10
    if 1 < c then 1 else if c < 3/10 then 3/10 else c

/-- `Analyzer.analyzeLocal`: the deterministic lexical strategy.  Note it
lower-cases `review.content` only — the title is never consulted — and it
does set the negativity/relevance flags itself (they are overwritten by
`Analyze`). -/
def analyzeLocal (cfg : AnalyzerConfig) (review : Review) : AnalysisResult :=
  let content := lowerStr review.content
  let base := lexicalScore content
  let exclamationCount := countOccurrences review.content "!"
  let capsCount := capsRuns review.content.data 0
  let amplified :=
    if 2 < exclamationCount ∨ 2 < capsCount then amplify base else base
  let keywords := matchedKeywords cfg content
  let catScores := categoryScoresOf keywords
  let score :=
    match review.rating with
    | some rt => amplified * (3/5) + ((rt - 3) / 2) * (2/5)
    | none => amplified
  { reviewID := "",
    sentimentScore := score,
    isNegative := decide (score < 0),
    isRelevant := decide (0 < keywords.length),
    intentCategory := topCategory catScores,
    confidence := localConfidence keywords.length,
    keywords := keywords,
    entities := entitiesFor content,
    categoryScores := catScores }

/-- The mutable analyzer state: the content-fingerprint cache. -/
structure AnalyzerState where
  cache : List (String × AnalysisResult)

/-- Strategy dispatch of `Analyze`.  The four remote strategies perform
network calls; they are abstracted by the oracle `strategy`, indexed by
the mode name, returning a Go-style (result, error) pair.  Mode "local"
and every unknown mode run `analyzeLocal`, which never errors. -/
def runStrategy (cfg : AnalyzerConfig)
    (strategy : String → Review → AnalysisResult × Option String)
    (review : Review) : AnalysisResult × Option String :=
  match cfg.mode with
  | "openai" => strategy "openai" review
  | "google" => strategy "google" review
  | "aws" => strategy "aws" review
  | "azure" => strategy "azure" review
  | "local" => (analyzeLocal cfg review, none)
  | _ => (analyzeLocal cfg review, none)

/-- The post-processing step of `Analyze`: attach the review id and
recompute the negativity/relevance flags from the configured thresholds. -/
def postProcess (cfg : AnalyzerConfig) (review : Review)
    (result : AnalysisResult) : AnalysisResult :=
  { result with
    reviewID := review.id,
    isNegative := decide (result.sentimentScore ≤ cfg.negativeThreshold),
    isRelevant := decide (cfg.relevanceThreshold ≤ result.confidence) }

/-- `Analyzer.Analyze`.  Returns the Go (result, error) pair, the updated
cache state, and whether a strategy was invoked (`false` = cache hit).
On a cache hit the cached result is returned unchanged; on a strategy
error the zero result and the error are returned and nothing is cached;
otherwise the post-processed result is cached under the content
fingerprint and returned. -/
def Analyze (cfg : AnalyzerConfig)
    (strategy : String → Review → AnalysisResult × Option String)
    (st : AnalyzerState) (review : Review) :
    (AnalysisResult × Option String) × AnalyzerState × Bool :=
  match assocFind (hexOfString review.content) st.cache with
  | some cached => ((cached, none), st, false)
  | none =>
    match runStrategy cfg strategy review with
    | (_, some e) => ((zeroResult, some e), st, true)
    | (result, none) =>
      let final := postProcess cfg review result
      ((final, none),
       ⟨(hexOfString review.content, final) :: st.cache⟩, true)

/-- The flag invariant of the spec: the negativity and relevance flags
are determined by the score/confidence against the configured
thresholds. -/
def flagsOK (cfg : AnalyzerConfig) (r : AnalysisResult) : Prop :=
  r.isNegative = decide (r.sentimentScore ≤ cfg.negativeThreshold) ∧
  r.isRelevant = decide (cfg.relevanceThreshold ≤ r.confidence)

/-- Every cached result satisfies the flag invariant. -/
def CacheGood (cfg : AnalyzerConfig) (st : AnalyzerState) : Prop :=
  ∀ p ∈ st.cache, flagsOK cfg p.2

/-- The sentiment formula the spec claims for the lexical step: computed
over the lower-cased concatenation of title and content.  Modelled from
the spec wording for comparison with the source function `analyzeLocal`, which
uses the content alone. -/
def claimedLexicalScore (review : Review) : ℚ :=
  lexicalScore (lowerStr (review.title ++ review.content))

/-- `m` occurs as a contiguous substring of `s`. -/
def substrOf (m s : String) : Prop :=
  ∃ u v, s.data = u ++ (m.data ++ v)

/-! ## Concrete instances used in witnesses and counterexamples -/

/-- An enabled adapter that succeeds with zero reviews. -/
def adapterOkEmpty : Adapter :=
  { name := "AppStore", enabled := true, scrape := ([], none) }

/-- An enabled adapter that fails. -/
def adapterFail : Adapter :=
  { name := "Twitter", enabled := true, scrape := ([], some "connection refused") }

/-- A sample scraped review. -/
def reviewOne : Review :=
  { id := "twitter-1", source := "twitter", sourceId := "1",
    content := "great dns tool", title := "", author := "u",
    rating := none, url := "" }

/-- An enabled adapter that succeeds with one review. -/
def adapterOkOne : Adapter :=
  { name := "Reddit", enabled := true, scrape := ([reviewOne], none) }

/-- A second review with the same content as `reviewOne` but another id. -/
def reviewTwo : Review :=
  { id := "reddit-2", source := "reddit", sourceId := "2",
    content := "great dns tool", title := "", author := "v",
    rating := none, url := "" }

/-- A review whose title carries the only positive word. -/
def reviewTitled : Review :=
  { id := "g2-1", source := "g2", sourceId := "3", content := "bad",
    title := "great", author := "w", rating := none, url := "" }

/-- A review with one positive word in the content. -/
def reviewGood : Review :=
  { id := "g2-2", source := "g2", sourceId := "4", content := "good",
    title := "", author := "w", rating := none, url := "" }

/-- A local-mode analyzer configuration. -/
def cfgLocal : AnalyzerConfig :=
  { mode := "local", negativeThreshold := 0, relevanceThreshold := 1/2,
    keywords := [] }

/-- A remote-mode analyzer configuration. -/
def cfgOpenai : AnalyzerConfig :=
  { mode := "openai", negativeThreshold := 0, relevanceThreshold := 1/2,
    keywords := [] }

/-- A remote strategy oracle that always succeeds with the zero result. -/
def strategyOk : String → Review → AnalysisResult × Option String :=
  fun _ _ => (zeroResult, none)

/-- A remote strategy oracle that always fails. -/
def strategyDown : String → Review → AnalysisResult × Option String :=
  fun _ _ => (zeroResult, some "remote unavailable")

/-- The empty analyzer cache. -/
def emptyState : AnalyzerState := ⟨[]⟩

/-- The security department of the routing scenario. -/
def deptSecurity : Department :=
  { id := "security_team", name := "Security Team",
    contactInfo := "security@example.com", categories := ["security"] }

/-- A router whose table maps security to the security team. -/
def routerSec : RouterState :=
  { mappingCache := [("security", "security_team")],
    departments := [("security_team", deptSecurity)],
    defaultDepartment := "support" }

/-- A router with no departments at all. -/
def routerEmpty : RouterState :=
  { mappingCache := [], departments := [], defaultDepartment := "engineering" }

/-- An analysis result with a mapped intent category and junk scores. -/
def analysisSec : AnalysisResult :=
  { zeroResult with
    intentCategory := "security",
    categoryScores := [("billing", 5)] }

/-- An analysis result with an unknown intent category and no scores. -/
def analysisUnknown : AnalysisResult :=
  { zeroResult with intentCategory := "mystery" }

/-! ## Helper lemmas -/

theorem strData_append (a b : String) : (a ++ b).data = a.data ++ b.data := rfl

theorem substr_self (m : String) : substrOf m m :=
  ⟨[], [], by simp⟩

theorem substr_append_right {m s : String} (t : String) (h : substrOf m s) :
    substrOf m (s ++ t) := by
  obtain ⟨u, v, hu⟩ := h
  exact ⟨u, v ++ t.data, by simp [strData_append, hu]⟩

theorem substr_trans {m s t : String} (h1 : substrOf m s) (h2 : substrOf s t) :
    substrOf m t := by
  obtain ⟨u, v, hu⟩ := h1
  obtain ⟨u', v', hu'⟩ := h2
  exact ⟨u' ++ u, v ++ v', by simp [hu', hu]⟩

theorem substr_foldl_pres {m acc : String} (es : List String)
    (h : substrOf m acc) :
    substrOf m (es.foldl (fun a e => a ++ "; " ++ e) acc) := by
  induction es generalizing acc with
  | nil => exact h
  | cons e es ih => exact ih (substr_append_right e (substr_append_right "; " h))

theorem substr_foldl_mem {m : String} {es : List String} (acc : String)
    (h : m ∈ es) :
    substrOf m (es.foldl (fun a e => a ++ "; " ++ e) acc) := by
  induction es generalizing acc with
  | nil => cases h
  | cons e es ih =>
    rcases List.mem_cons.mp h with rfl | hm
    · exact substr_foldl_pres es ⟨(acc ++ "; ").data, [], by simp [strData_append]⟩
    · exact ih _ hm

theorem substr_combineErrs {m : String} {es : List String} (h : m ∈ es) :
    substrOf m (combineErrs es) := by
  cases es with
  | nil => cases h
  | cons e es =>
    rcases List.mem_cons.mp h with rfl | hm
    · exact substr_foldl_pres es (substr_self m)
    · exact substr_foldl_mem e hm

theorem assocFind_mem {α : Type} {k : String} {v : α} :
    ∀ {l : List (String × α)}, assocFind k l = some v → (k, v) ∈ l := by
  intro l
  induction l with
  | nil => intro h; cases h
  | cons p rest ih =>
    obtain ⟨k', v'⟩ := p
    intro h
    by_cases hk : k' = k
    · simp only [assocFind, hk, if_pos] at h
      cases h
      subst hk
      exact List.mem_cons_self _ _
    · simp only [assocFind, hk, if_neg, not_false_iff] at h
      exact List.mem_cons_of_mem _ (ih h)

theorem scrapeFold (l : List Adapter) (rs : List Review) (es : List String) :
    l.foldl scrapeStep (rs, es) =
      (rs ++ (l.filterMap okReviews).flatten, es ++ l.filterMap failMsg) := by
  induction l generalizing rs es with
  | nil => simp
  | cons a l ih =>
    cases ha : a.scrape with
    | mk rvs err =>
      cases err with
      | none =>
        simp [List.foldl_cons, scrapeStep, okReviews, failMsg, ha, ih]
      | some e =>
        simp [List.foldl_cons, scrapeStep, okReviews, failMsg, ha, ih]

theorem scrapeAll_eq (adapters : List Adapter) :
    scrapeAll adapters =
      if (successReviews adapters).isEmpty ∧ ¬(failMsgs adapters).isEmpty then
        ([], some (combineErrs (failMsgs adapters)))
      else (successReviews adapters, none) := by
  simp only [scrapeAll, scrapeFold, List.nil_append, successReviews, failMsgs]

/-! ## Claims about the scrape orchestrator -/

/-- C1 (counterexample): one enabled adapter succeeds (with zero reviews)
and the other fails, yet `ScrapeAll` returns the combined error rather
than the empty union with a nil error, refuting the claim as stated. -/
theorem scrapeAll_zero_success_counterexample :
    adapterOkEmpty.enabled = true ∧ adapterOkEmpty.scrape.2 = none ∧
    adapterFail.enabled = true ∧ adapterFail.scrape.2 = some "connection refused" ∧
    successReviews [adapterOkEmpty, adapterFail] = [] ∧
    scrapeAll [adapterOkEmpty, adapterFail] ≠
      (successReviews [adapterOkEmpty, adapterFail], none) ∧
    scrapeAll [adapterOkEmpty, adapterFail] =
      ([], some "Twitter scraper error: connection refused") := by
  decide

/-- C1 (amended): if at least one enabled adapter succeeds and the union
of the reviews of the successful adapters is non-empty, `ScrapeAll` returns
exactly that union with a nil error (the errors of the failed adapters are
dropped). -/
theorem scrapeAll_partial_success (adapters : List Adapter)
    (_hsucc : ∃ a ∈ adapters, a.enabled = true ∧ a.scrape.2 = none)
    (hne : successReviews adapters ≠ []) :
    scrapeAll adapters = (successReviews adapters, none) := by
  rw [scrapeAll_eq, if_neg]
  rintro ⟨h1, -⟩
  exact hne (List.isEmpty_iff.mp h1)

/-- C1 (witness): amended theorem applied to one succeeding adapter with
one review plus one failing adapter. -/
theorem scrapeAll_partial_success_witness :
    (∃ a ∈ [adapterOkOne, adapterFail], a.enabled = true ∧ a.scrape.2 = none) ∧
    successReviews [adapterOkOne, adapterFail] ≠ [] ∧
    scrapeAll [adapterOkOne, adapterFail] =
      (successReviews [adapterOkOne, adapterFail], none) :=
  ⟨by decide, by decide,
   scrapeAll_partial_success [adapterOkOne, adapterFail] (by decide) (by decide)⟩

/-- C6: when every enabled adapter fails (and at least one adapter is
enabled), `ScrapeAll` returns zero reviews and a single non-nil error
whose message contains the failure message of every enabled adapter. -/
theorem scrapeAll_total_failure (adapters : List Adapter)
    (hex : ∃ a ∈ adapters, a.enabled = true)
    (hfail : ∀ a ∈ adapters, a.enabled = true → a.scrape.2 ≠ none) :
    (scrapeAll adapters).1 = [] ∧
    ∃ E, (scrapeAll adapters).2 = some E ∧
      ∀ a ∈ adapters, a.enabled = true →
        ∀ e, a.scrape.2 = some e → substrOf e E := by
  have hsucc : successReviews adapters = [] := by
    have : ∀ a ∈ adapters.filter (fun a => a.enabled), okReviews a = none := by
      intro a ha
      rcases List.mem_filter.mp ha with ⟨hmem, hen⟩
      have h2 := hfail a hmem hen
      cases hsc : a.scrape with
      | mk rvs err =>
        cases err with
        | none => exact absurd (by rw [hsc]) h2
        | some e => simp [okReviews, hsc]
    simp only [successReviews]
    rw [List.filterMap_eq_nil_iff.mpr this]
    rfl
  have hmsg : ∀ a ∈ adapters, a.enabled = true →
      ∀ e, a.scrape.2 = some e →
        (a.name ++ " scraper error: " ++ e) ∈ failMsgs adapters := by
    intro a hmem hen e he
    refine List.mem_filterMap.mpr ⟨a, List.mem_filter.mpr ⟨hmem, hen⟩, ?_⟩
    cases hsc : a.scrape with
    | mk rvs err =>
      rw [hsc] at he
      simp only at he
      rw [he] at hsc
      simp [failMsg, hsc]
  have hfm : ¬(failMsgs adapters).isEmpty := by
    obtain ⟨a, hmem, hen⟩ := hex
    have h2 := hfail a hmem hen
    cases hsc : a.scrape with
    | mk rvs err =>
      cases err with
      | none => exact absurd (by rw [hsc]) h2
      | some e =>
        have := hmsg a hmem hen e (by rw [hsc])
        intro hemp
        rw [List.isEmpty_iff.mp hemp] at this
        cases this
  rw [scrapeAll_eq, if_pos ⟨by simp [hsucc], hfm⟩]
  refine ⟨rfl, combineErrs (failMsgs adapters), rfl, ?_⟩
  intro a hmem hen e he
  refine substr_trans ?_ (substr_combineErrs (hmsg a hmem hen e he))
  exact ⟨(a.name ++ " scraper error: ").data, [], by simp [strData_append]⟩

/-- C6 (witness): both enabled adapters fail; the combined error contains
each failure message. -/
theorem scrapeAll_total_failure_witness :
    (∃ a ∈ [adapterFail], a.enabled = true) ∧
    (∀ a ∈ [adapterFail], a.enabled = true → a.scrape.2 ≠ none) ∧
    ((scrapeAll [adapterFail]).1 = [] ∧
     ∃ E, (scrapeAll [adapterFail]).2 = some E ∧
       ∀ a ∈ [adapterFail], a.enabled = true →
         ∀ e, a.scrape.2 = some e → substrOf e E) :=
  ⟨by decide, by decide,
   scrapeAll_total_failure [adapterFail] (by decide) (by decide)⟩

/-! ## Claims about the routing engine -/

theorem lookupDept_mem {r : RouterState} {c : String} {d : Department}
    (h : lookupDept r c = some d) : ∃ k, (k, d) ∈ r.departments := by
  unfold lookupDept at h
  cases hm : assocFind c r.mappingCache with
  | none => rw [hm] at h; cases h
  | some deptID => rw [hm] at h; exact ⟨deptID, assocFind_mem h⟩

theorem firstMapped_mem {r : RouterState} {d : Department} :
    ∀ {l : List (String × ℚ)}, firstMapped r l = some d →
      ∃ k, (k, d) ∈ r.departments := by
  intro l
  induction l with
  | nil => intro h; cases h
  | cons p rest ih =>
    obtain ⟨cat, sc⟩ := p
    intro h
    simp only [firstMapped] at h
    cases hl : lookupDept r cat with
    | some d' => rw [hl] at h; cases h; exact lookupDept_mem hl
    | none => rw [hl] at h; exact ih h

theorem firstMapped_none {r : RouterState} {l : List (String × ℚ)}
    (h : ∀ p ∈ l, lookupDept r p.1 = none) : firstMapped r l = none := by
  induction l with
  | nil => rfl
  | cons p rest ih =>
    obtain ⟨cat, sc⟩ := p
    simp only [firstMapped]
    rw [h (cat, sc) (List.mem_cons_self _ _)]
    exact ih (fun q hq => h q (List.mem_cons_of_mem _ hq))

/-- C2: routing is total — `Route` returns a department (never an error);
its identifier is non-empty whenever the configured departments have
non-empty identifiers, and when the direct lookup, the score-ranked
fallback, the configured default and the "support" department all fail,
it returns the hard-coded generic support department. -/
theorem route_total (r : RouterState) (a : AnalysisResult)
    (hdepts : ∀ p ∈ r.departments, p.2.id ≠ "") :
    (Route r a).id ≠ "" ∧
    ((lookupDept r a.intentCategory = none ∧
      (∀ p ∈ a.categoryScores, lookupDept r p.1 = none) ∧
      assocFind r.defaultDepartment r.departments = none ∧
      assocFind "support" r.departments = none) →
      Route r a = hardcodedSupport) := by
  constructor
  · unfold Route
    cases h1 : lookupDept r a.intentCategory with
    | some d =>
      obtain ⟨k, hk⟩ := lookupDept_mem h1
      exact hdepts (k, d) hk
    | none =>
      cases h2 : firstMapped r (sortScores a.categoryScores) with
      | some d =>
        obtain ⟨k, hk⟩ := firstMapped_mem h2
        exact hdepts (k, d) hk
      | none =>
        cases h3 : assocFind r.defaultDepartment r.departments with
        | some d => exact hdepts _ (assocFind_mem h3)
        | none =>
          cases h4 : assocFind "support" r.departments with
          | some d => exact hdepts _ (assocFind_mem h4)
          | none => simp [hardcodedSupport]
  · rintro ⟨h1, h2, h3, h4⟩
    have h2' : firstMapped r (sortScores a.categoryScores) = none := by
      apply firstMapped_none
      intro p hp
      exact h2 p ((List.perm_insertionSort _ a.categoryScores).mem_iff.mp hp)
    unfold Route
    rw [h1, h2', h3, h4]

/-- C2 (witness): a router with no departments and an unknown intent
category routes to the hard-coded support department, with a non-empty
identifier. -/
theorem route_total_witness :
    (∀ p ∈ routerEmpty.departments, p.2.id ≠ "") ∧
    (Route routerEmpty analysisUnknown).id ≠ "" ∧
    Route routerEmpty analysisUnknown = hardcodedSupport :=
  ⟨by simp [routerEmpty],
   (route_total routerEmpty analysisUnknown (by simp [routerEmpty])).1,
   (route_total routerEmpty analysisUnknown (by simp [routerEmpty])).2
     ⟨by decide, by decide, by decide, by decide⟩⟩

/-- C7: when the intent category of the result has a mapping-table entry that
leads to an existing department, `Route` returns that department,
whatever the category-score map holds. -/
theorem route_direct_mapping (r : RouterState) (a : AnalysisResult)
    (deptID : String) (d : Department)
    (h1 : assocFind a.intentCategory r.mappingCache = some deptID)
    (h2 : assocFind deptID r.departments = some d) :
    Route r a = d := by
  have h : lookupDept r a.intentCategory = some d := by
    unfold lookupDept
    rw [h1]
    exact h2
  unfold Route
  rw [h]

/-- C7 (witness): the security scenario — `security` maps to the
security team department, in spite of a junk category-score map. -/
theorem route_direct_mapping_witness :
    assocFind analysisSec.intentCategory routerSec.mappingCache =
      some "security_team" ∧
    assocFind "security_team" routerSec.departments = some deptSecurity ∧
    Route routerSec analysisSec = deptSecurity :=
  ⟨by decide, by decide,
   route_direct_mapping routerSec analysisSec "security_team" deptSecurity
     (by decide) (by decide)⟩

/-! ## Claims about the classification engine: caching and flags -/

theorem Analyze_hit {cfg : AnalyzerConfig}
    {strat : String → Review → AnalysisResult × Option String}
    {st : AnalyzerState} {review : Review} {cached : AnalysisResult}
    (h : assocFind (hexOfString review.content) st.cache = some cached) :
    Analyze cfg strat st review = ((cached, none), st, false) := by
  unfold Analyze
  rw [h]

theorem Analyze_err {cfg : AnalyzerConfig}
    {strat : String → Review → AnalysisResult × Option String}
    {st : AnalyzerState} {review : Review} {r₀ : AnalysisResult} {e : String}
    (hmiss : assocFind (hexOfString review.content) st.cache = none)
    (hrun : runStrategy cfg strat review = (r₀, some e)) :
    Analyze cfg strat st review = ((zeroResult, some e), st, true) := by
  unfold Analyze
  rw [hmiss, hrun]

theorem Analyze_ok {cfg : AnalyzerConfig}
    {strat : String → Review → AnalysisResult × Option String}
    {st : AnalyzerState} {review : Review} {result : AnalysisResult}
    (hmiss : assocFind (hexOfString review.content) st.cache = none)
    (hrun : runStrategy cfg strat review = (result, none)) :
    Analyze cfg strat st review =
      ((postProcess cfg review result, none),
       ⟨(hexOfString review.content, postProcess cfg review result) :: st.cache⟩,
       true) := by
  unfold Analyze
  rw [hmiss, hrun]

/-- C3: on a cache state in which every entry satisfies the flag
invariant (as the empty initial cache does), any successful `Analyze`
call returns a result whose negativity flag equals
`sentimentScore ≤ negativeThreshold` and whose relevance flag equals
`confidence ≥ relevanceThreshold` — whatever flags the strategy set —
and the invariant is preserved on the updated cache. -/
theorem analyze_flag_thresholds (cfg : AnalyzerConfig)
    (strat : String → Review → AnalysisResult × Option String)
    (st : AnalyzerState) (review : Review)
    (h : CacheGood cfg st) :
    ((Analyze cfg strat st review).1.2 = none →
      flagsOK cfg (Analyze cfg strat st review).1.1) ∧
    CacheGood cfg (Analyze cfg strat st review).2.1 := by
  cases hfind : assocFind (hexOfString review.content) st.cache with
  | some cached =>
    rw [Analyze_hit hfind]
    exact ⟨fun _ => h _ (assocFind_mem hfind), h⟩
  | none =>
    cases hrun : runStrategy cfg strat review with
    | mk result err =>
      cases err with
      | some e =>
        rw [Analyze_err hfind hrun]
        exact ⟨fun hc => Option.noConfusion hc, h⟩
      | none =>
        rw [Analyze_ok hfind hrun]
        refine ⟨fun _ => ⟨rfl, rfl⟩, ?_⟩
        intro p hp
        rcases List.mem_cons.mp hp with rfl | hp'
        · exact ⟨rfl, rfl⟩
        · exact h p hp'

/-- C3 (witness): the invariant holds on the empty cache and the theorem
applies to a concrete local-mode call. -/
theorem analyze_flag_thresholds_witness :
    CacheGood cfgLocal emptyState ∧
    (((Analyze cfgLocal strategyOk emptyState reviewOne).1.2 = none →
      flagsOK cfgLocal (Analyze cfgLocal strategyOk emptyState reviewOne).1.1) ∧
     CacheGood cfgLocal (Analyze cfgLocal strategyOk emptyState reviewOne).2.1) :=
  ⟨fun p hp => absurd hp (List.not_mem_nil p),
   analyze_flag_thresholds cfgLocal strategyOk emptyState reviewOne
     (fun p hp => absurd hp (List.not_mem_nil p))⟩

/-- C4: a second `Analyze` call with the same content returns the result of the
first call bit for bit, leaves the state unchanged, and does not
invoke any strategy (the `false` component): the result is served from
the content-fingerprint cache. -/
theorem analyze_cache_idempotent (cfg : AnalyzerConfig)
    (strat : String → Review → AnalysisResult × Option String)
    (st : AnalyzerState) (r r' : Review)
    (hc : r'.content = r.content)
    (h1 : (Analyze cfg strat st r).1.2 = none) :
    Analyze cfg strat (Analyze cfg strat st r).2.1 r' =
      (((Analyze cfg strat st r).1.1, none),
       (Analyze cfg strat st r).2.1, false) := by
  cases hfind : assocFind (hexOfString r.content) st.cache with
  | some cached =>
    have hfirst := @Analyze_hit cfg strat st r cached hfind
    have hfind' : assocFind (hexOfString r'.content) st.cache = some cached := by
      rw [hc]
      exact hfind
    rw [hfirst]
    exact Analyze_hit hfind'
  | none =>
    cases hrun : runStrategy cfg strat r with
    | mk result err =>
      cases err with
      | some e =>
        rw [Analyze_err hfind hrun] at h1
        cases h1
      | none =>
        have hfirst := Analyze_ok hfind hrun
        have hkey : hexOfString r'.content = hexOfString r.content := by rw [hc]
        have hlook : assocFind (hexOfString r'.content)
            ((hexOfString r.content, postProcess cfg r result) :: st.cache) =
            some (postProcess cfg r result) := by
          simp [assocFind, hkey]
        rw [hfirst]
        exact Analyze_hit hlook

/-- C4 (witness): analyzing the same review twice from the empty cache. -/
theorem analyze_cache_idempotent_witness :
    reviewOne.content = reviewOne.content ∧
    (Analyze cfgLocal strategyOk emptyState reviewOne).1.2 = none ∧
    Analyze cfgLocal strategyOk
        (Analyze cfgLocal strategyOk emptyState reviewOne).2.1 reviewOne =
      (((Analyze cfgLocal strategyOk emptyState reviewOne).1.1, none),
       (Analyze cfgLocal strategyOk emptyState reviewOne).2.1, false) :=
  ⟨rfl, rfl,
   analyze_cache_idempotent cfgLocal strategyOk emptyState reviewOne reviewOne
     rfl rfl⟩

/-- C9: with a fresh fingerprint, analyzing review A and then review B of
equal content but different id serves B the cached result, whose
attached review id is that of A — the cache hit bypasses the post-processing
step that would attach the id of B. -/
theorem analyze_stale_review_id (cfg : AnalyzerConfig)
    (strat : String → Review → AnalysisResult × Option String)
    (st : AnalyzerState) (rA rB : Review)
    (hc : rB.content = rA.content) (hid : rA.id ≠ rB.id)
    (hmiss : assocFind (hexOfString rA.content) st.cache = none)
    (hok : (Analyze cfg strat st rA).1.2 = none) :
    (Analyze cfg strat (Analyze cfg strat st rA).2.1 rB).1.1 =
      (Analyze cfg strat st rA).1.1 ∧
    (Analyze cfg strat (Analyze cfg strat st rA).2.1 rB).1.1.reviewID = rA.id ∧
    (Analyze cfg strat (Analyze cfg strat st rA).2.1 rB).1.1.reviewID ≠ rB.id ∧
    (Analyze cfg strat (Analyze cfg strat st rA).2.1 rB).2.2 = false := by
  cases hrun : runStrategy cfg strat rA with
  | mk result err =>
    cases err with
    | some e =>
      rw [Analyze_err hmiss hrun] at hok
      cases hok
    | none =>
      have hfirst := Analyze_ok hmiss hrun
      have hkey : hexOfString rB.content = hexOfString rA.content := by rw [hc]
      have hsecond : Analyze cfg strat (Analyze cfg strat st rA).2.1 rB =
          ((postProcess cfg rA result, none),
           (Analyze cfg strat st rA).2.1, false) := by
        rw [hfirst]
        exact Analyze_hit (by simp [assocFind, hkey])
      rw [hsecond, hfirst]
      refine ⟨rfl, rfl, ?_, rfl⟩
      show (postProcess cfg rA result).reviewID ≠ rB.id
      simpa [postProcess] using hid

/-- C9 (witness): two concrete reviews with equal content and different
ids; the second call is served the review id of the first call. -/
theorem analyze_stale_review_id_witness :
    reviewTwo.content = reviewOne.content ∧
    reviewOne.id ≠ reviewTwo.id ∧
    assocFind (hexOfString reviewOne.content) emptyState.cache = none ∧
    (Analyze cfgLocal strategyOk emptyState reviewOne).1.2 = none ∧
    (Analyze cfgLocal strategyOk
        (Analyze cfgLocal strategyOk emptyState reviewOne).2.1
        reviewTwo).1.1.reviewID = reviewOne.id ∧
    (Analyze cfgLocal strategyOk
        (Analyze cfgLocal strategyOk emptyState reviewOne).2.1
        reviewTwo).1.1.reviewID ≠ reviewTwo.id :=
  ⟨rfl, by decide, rfl, rfl,
   (analyze_stale_review_id cfgLocal strategyOk emptyState reviewOne reviewTwo
      rfl (by decide) rfl rfl).2.1,
   (analyze_stale_review_id cfgLocal strategyOk emptyState reviewOne reviewTwo
      rfl (by decide) rfl rfl).2.2.1⟩

/-- C10: when the selected strategy fails, `Analyze` returns the zero
result with that error, leaves the cache untouched, and a later call
with equal content invokes a strategy again (the `true` component)
instead of returning a cached failure. -/
theorem analyze_error_no_cache (cfg : AnalyzerConfig)
    (strat : String → Review → AnalysisResult × Option String)
    (st : AnalyzerState) (review : Review) (e : String)
    (hmiss : assocFind (hexOfString review.content) st.cache = none)
    (herr : (runStrategy cfg strat review).2 = some e) :
    Analyze cfg strat st review = ((zeroResult, some e), st, true) ∧
    ∀ r₂ : Review, r₂.content = review.content →
      (Analyze cfg strat (Analyze cfg strat st review).2.1 r₂).2.2 = true := by
  cases hrun : runStrategy cfg strat review with
  | mk r₀ err =>
    rw [hrun] at herr
    have herr₂ : err = some e := herr
    subst herr₂
    have hfirst := Analyze_err hmiss hrun
    refine ⟨hfirst, ?_⟩
    intro r₂ hc
    rw [hfirst]
    show (Analyze cfg strat st r₂).2.2 = true
    have hmiss₂ : assocFind (hexOfString r₂.content) st.cache = none := by
      rw [hc]
      exact hmiss
    cases hrun₂ : runStrategy cfg strat r₂ with
    | mk r₁ err₂ =>
      cases err₂ with
      | some e₂ => rw [Analyze_err hmiss₂ hrun₂]
      | none => rw [Analyze_ok hmiss₂ hrun₂]

/-- C10 (witness): a failing remote strategy on the empty cache; the
repeat call with equal content invokes a strategy again. -/
theorem analyze_error_no_cache_witness :
    assocFind (hexOfString reviewOne.content) emptyState.cache = none ∧
    (runStrategy cfgOpenai strategyDown reviewOne).2 = some "remote unavailable" ∧
    Analyze cfgOpenai strategyDown emptyState reviewOne =
      ((zeroResult, some "remote unavailable"), emptyState, true) ∧
    (Analyze cfgOpenai strategyDown
        (Analyze cfgOpenai strategyDown emptyState reviewOne).2.1
        reviewTwo).2.2 = true :=
  ⟨rfl, rfl,
   (analyze_error_no_cache cfgOpenai strategyDown emptyState reviewOne
      "remote unavailable" rfl rfl).1,
   (analyze_error_no_cache cfgOpenai strategyDown emptyState reviewOne
      "remote unavailable" rfl rfl).2 reviewTwo rfl⟩

/-! ## Claims about the local strategy: lexical sentiment and confidence -/

theorem analyzeLocal_score (cfg : AnalyzerConfig) (review : Review)
    (hr : review.rating = none)
    (hexc : countOccurrences review.content "!" ≤ 2)
    (hcaps : capsRuns review.content.data 0 ≤ 2) :
    (analyzeLocal cfg review).sentimentScore =
      lexicalScore (lowerStr review.content) := by
  have hcond : ¬(2 < countOccurrences review.content "!" ∨
      2 < capsRuns review.content.data 0) :=
    not_or.mpr ⟨Nat.not_lt.mpr hexc, Nat.not_lt.mpr hcaps⟩
  simp only [analyzeLocal, hr, hcond, if_false, if_neg, not_false_iff]

/-- C5 (counterexample): the lexical sentiment is computed over the
content alone; a review whose only positive word sits in the title gets
score -1 from the code, while the spec formula over title++content gives
0. -/
theorem analyzeLocal_title_ignored_counterexample :
    reviewTitled.title = "great" ∧ reviewTitled.content = "bad" ∧
    reviewTitled.rating = none ∧
    (analyzeLocal cfgLocal reviewTitled).sentimentScore = -1 ∧
    claimedLexicalScore reviewTitled = 0 ∧
    (analyzeLocal cfgLocal reviewTitled).sentimentScore ≠
      claimedLexicalScore reviewTitled := by
  have hscore := analyzeLocal_score cfgLocal reviewTitled rfl (by decide) (by decide)
  have hpos : positiveCount (lowerStr reviewTitled.content) = 0 := by decide
  have hneg : negativeCount (lowerStr reviewTitled.content) = 1 := by decide
  have hlex : lexicalScore (lowerStr reviewTitled.content) = -1 := by
    simp only [lexicalScore, hpos, hneg]
    norm_num
  have hpos2 : positiveCount (lowerStr (reviewTitled.title ++ reviewTitled.content)) = 1 := by
    decide
  have hneg2 : negativeCount (lowerStr (reviewTitled.title ++ reviewTitled.content)) = 1 := by
    decide
  have hclaim : claimedLexicalScore reviewTitled = 0 := by
    simp only [claimedLexicalScore, lexicalScore, hpos2, hneg2]
    norm_num
  refine ⟨rfl, rfl, rfl, hscore.trans hlex, hclaim, ?_⟩
  rw [hscore.trans hlex, hclaim]
  norm_num

/-- C5 (amended): the lexical sentiment is computed over the lower-cased
content alone (the title is ignored): occurrences of the fixed positive
and negative words are counted there, and — when no intensity
amplification fires and no rating is present — the sentiment score is
`(positiveCount - negativeCount) / (positiveCount + negativeCount)`, or
0 when both counts are zero. -/
theorem analyzeLocal_lexical_content_only (cfg : AnalyzerConfig)
    (review : Review)
    (hr : review.rating = none)
    (hexc : countOccurrences review.content "!" ≤ 2)
    (hcaps : capsRuns review.content.data 0 ≤ 2) :
    (analyzeLocal cfg review).sentimentScore =
      (if 0 < positiveCount (lowerStr review.content) +
            negativeCount (lowerStr review.content) then
        ((positiveCount (lowerStr review.content) : ℚ) -
            (negativeCount (lowerStr review.content) : ℚ)) /
          ((positiveCount (lowerStr review.content) +
              negativeCount (lowerStr review.content) : ℕ) : ℚ)
      else 0) := by
  rw [analyzeLocal_score cfg review hr hexc hcaps]
  rfl

/-- C5 (witness): amended theorem applied to a review whose content is
one positive word. -/
theorem analyzeLocal_lexical_content_only_witness :
    reviewGood.rating = none ∧
    countOccurrences reviewGood.content "!" ≤ 2 ∧
    capsRuns reviewGood.content.data 0 ≤ 2 ∧
    (analyzeLocal cfgLocal reviewGood).sentimentScore =
      (if 0 < positiveCount (lowerStr reviewGood.content) +
            negativeCount (lowerStr reviewGood.content) then
        ((positiveCount (lowerStr reviewGood.content) : ℚ) -
            (negativeCount (lowerStr reviewGood.content) : ℚ)) /
          ((positiveCount (lowerStr reviewGood.content) +
              negativeCount (lowerStr reviewGood.content) : ℕ) : ℚ)
      else 0) :=
  ⟨rfl, by decide, by decide,
   analyzeLocal_lexical_content_only cfgLocal reviewGood rfl (by decide)
     (by decide)⟩

theorem localConfidence_spec (n : Nat) :
    localConfidence n =
      (if n = 0 then 1/2 else min 1 (max (3/10) ((n : ℚ) / 10))) ∧
    (localConfidence n = 1/2 ∨
     (3/10 ≤ localConfidence n ∧ localConfidence n ≤ 1)) := by
  by_cases h0 : n = 0
  · subst h0
    simp [localConfidence]
  · have heq : localConfidence n = min 1 (max (3/10) ((n : ℚ) / 10)) := by
      unfold localConfidence
      rw [if_neg h0]
      by_cases h1 : 1 < (n : ℚ) / 10
      · rw [if_pos h1]
        exact (min_eq_left (le_max_of_le_right h1.le)).symm
      · rw [if_neg h1]
        by_cases h2 : (n : ℚ) / 10 < 3/10
        · rw [if_pos h2, max_eq_left h2.le,
            min_eq_right (by norm_num : (3:ℚ)/10 ≤ 1)]
        · rw [if_neg h2, max_eq_right (not_lt.mp h2), min_eq_right (not_lt.mp h1)]
    refine ⟨by rw [heq, if_neg h0], Or.inr ⟨?_, ?_⟩⟩
    · rw [heq]
      exact le_min (by norm_num) (le_max_left _ _)
    · rw [heq]
      exact min_le_left _ _

/-- C8: the confidence of the local strategy is 0.5 for zero matched
keywords, and for one or more matched keywords it is the keyword count
divided by 10 and clamped into [0.3, 1.0]; hence it always lies in
[0.3, 1.0] or equals 0.5. -/
theorem analyzeLocal_confidence (cfg : AnalyzerConfig) (review : Review) :
    (analyzeLocal cfg review).confidence =
      (if (matchedKeywords cfg (lowerStr review.content)).length = 0 then 1/2
       else min 1 (max (3/10)
         (((matchedKeywords cfg (lowerStr review.content)).length : ℚ) / 10))) ∧
    ((analyzeLocal cfg review).confidence = 1/2 ∨
     (3/10 ≤ (analyzeLocal cfg review).confidence ∧
      (analyzeLocal cfg review).confidence ≤ 1)) :=
  localConfidence_spec (matchedKeywords cfg (lowerStr review.content)).length
